import Mathlib

/-!
Verification of the extraction pipeline of the `docify` proc-macro crate
(`src/macros/src/lib.rs`).

The development shallowly embeds the crate's core: the uniform item model
(`name_ident`, `item_attributes`, `set_item_attributes`), the export-tag
recognition and key resolution performed inside `ItemVisitor::visit_item`,
the recursive tree search, the snippet renderer (`format_source_code`,
`into_example`), and the orchestrators (`embed_internal`, `export_internal`).

External collaborators (the `syn` parser, `proc-macro2` token printing, and
the `prettyplease` formatter) are modelled as an explicit record of abstract
functions (`SynModel`); a `none` result of an embedded function models a Rust
panic (an `unwrap` failure or the `unimplemented!()` arm), while `Except.error`
models a `syn::Error` compile diagnostic.
-/

namespace Docify

/-- Attribute style, mirroring `syn::AttrStyle`: outer (`#[...]`) or inner (`#![...]`). -/
inductive AttrStyle where
  | outer
  | inner
deriving DecidableEq

/-- A single token of a proc-macro token stream, at the granularity needed by
`parse2::<Ident>`: either a plain identifier token or any other token. -/
inductive Tok where
  | ident (s : String)
  | other
deriving DecidableEq

/-- The `syn::Meta` payload of an attribute: a bare path (`#[export]`), a
parenthesized token list (`#[export(foo)]`), or a name-value form (`#[export = ...]`). -/
inductive Meta where
  | path
  | list (tokens : List Tok)
  | nameValue
deriving DecidableEq

/-- A `syn::Attribute`: its style, the identifiers of its path segments in order
(e.g. `["docify", "export"]` for `#[docify::export]`), and its meta payload. -/
structure Attribute where
  style : AttrStyle
  segments : List String
  meta : Meta
deriving DecidableEq

/-- A `syn::Item`: one declaration of the parsed file. Variants mirror the arms
matched in `name_ident` / `item_attributes` / `set_item_attributes`; container-like
variants carry the list of nested items that `syn::visit::visit_item` reaches inside
them (module bodies, fn bodies, impl and trait bodies), in source order.
`Verbatim` stands for the catch-all `_` arm (items carrying no attribute list). -/
inductive Item where
  | Const (attrs : List Attribute) (ident : String)
  | Enum (attrs : List Attribute) (ident : String)
  | ExternCrate (attrs : List Attribute) (ident : String)
  | Fn (attrs : List Attribute) (ident : String) (body : List Item)
  | ForeignMod (attrs : List Attribute)
  | Impl (attrs : List Attribute) (items : List Item)
  | MacroItem (attrs : List Attribute) (identOpt : Option String)
  | Mod (attrs : List Attribute) (ident : String) (items : List Item)
  | Static (attrs : List Attribute) (ident : String)
  | Struct (attrs : List Attribute) (ident : String)
  | Trait (attrs : List Attribute) (ident : String) (items : List Item)
  | TraitAlias (attrs : List Attribute) (ident : String)
  | TypeAlias (attrs : List Attribute) (ident : String)
  | Union (attrs : List Attribute) (ident : String)
  | Use (attrs : List Attribute)
  | Verbatim

/-- `name_ident` (lib.rs lines 16–36): the inherent name ident of an item, if any.
`Item::Macro` may lack one; `ForeignMod`, `Impl`, `Use` and the catch-all have none. -/
def name_ident : Item → Option String
  | .Const _ i => some i
  | .Enum _ i => some i
  | .ExternCrate _ i => some i
  | .Fn _ i _ => some i
  | .MacroItem _ iOpt => iOpt
  | .Mod _ i _ => some i
  | .Static _ i => some i
  | .Struct _ i => some i
  | .Trait _ i _ => some i
  | .TraitAlias _ i => some i
  | .TypeAlias _ i => some i
  | .Union _ i => some i
  | _ => none

/-- `item_attributes` (lib.rs lines 39–59): the attribute list of an item; the
catch-all arm returns the empty list. -/
def item_attributes : Item → List Attribute
  | .Const a _ => a
  | .Enum a _ => a
  | .ExternCrate a _ => a
  | .Fn a _ _ => a
  | .ForeignMod a => a
  | .Impl a _ => a
  | .MacroItem a _ => a
  | .Mod a _ _ => a
  | .Static a _ => a
  | .Struct a _ => a
  | .Trait a _ _ => a
  | .TraitAlias a _ => a
  | .TypeAlias a _ => a
  | .Union a _ => a
  | .Use a => a
  | .Verbatim => []

/-- `set_item_attributes` (lib.rs lines 60–79): replace an item's attribute list.
The catch-all arm is `unimplemented!()`, modelled as `none` (a panic). -/
def set_item_attributes : Item → List Attribute → Option Item
  | .Const _ i, a => some (.Const a i)
  | .Enum _ i, a => some (.Enum a i)
  | .ExternCrate _ i, a => some (.ExternCrate a i)
  | .Fn _ i b, a => some (.Fn a i b)
  | .ForeignMod _, a => some (.ForeignMod a)
  | .Impl _ its, a => some (.Impl a its)
  | .MacroItem _ iOpt, a => some (.MacroItem a iOpt)
  | .Mod _ i its, a => some (.Mod a i its)
  | .Static _ i, a => some (.Static a i)
  | .Struct _ i, a => some (.Struct a i)
  | .Trait _ i its, a => some (.Trait a i its)
  | .TraitAlias _ i, a => some (.TraitAlias a i)
  | .TypeAlias _ i, a => some (.TypeAlias a i)
  | .Union _ i, a => some (.Union a i)
  | .Use _, a => some (.Use a)
  | .Verbatim, _ => none

/-- The nested items that `syn::visit::visit_item` recurses into for each variant. -/
def children : Item → List Item
  | .Fn _ _ b => b
  | .Impl _ its => its
  | .Mod _ _ its => its
  | .Trait _ _ its => its
  | _ => []

/-- `parse2::<Ident>` on a token stream: succeeds iff the stream is exactly one
identifier token (`parse2` rejects leftover tokens). -/
def parseIdentTokens : List Tok → Option String
  | [Tok.ident s] => some s
  | _ => none

/-- The per-attribute body of the `for attr in attrs` loop in
`ItemVisitor::visit_item` (lib.rs lines 298–324): returns the resolved export key
for `attr` on `node`, or `none` when the loop `continue`s past this attribute.
Mirrors, in order: the outer-style check, the last path segment check against
`"export"`, the second-to-last segment lookup (`segments.iter().rev().nth(1)`,
which is `None` on a single-segment path and then `continue`s), the
second-to-last segment check against the last segment's ident and `"docify"`,
the `Meta::List` explicit-ident parse with silent fallback, and the
`name_ident` fallback. -/
def attrMatchKey (node : Item) (attr : Attribute) : Option String :=
  match attr.style with
  | AttrStyle.inner => none
  | AttrStyle.outer =>
    match attr.segments.getLast? with
    | none => none
    | some lastSeg =>
      if lastSeg ≠ "export" then none
      else
        match attr.segments.reverse.get? 1 with
        | none => none
        | some secondToLast =>
          if secondToLast ≠ lastSeg ∧ secondToLast ≠ "docify" then none
          else
            let explicitIdent :=
              match attr.meta with
              | Meta.list toks => parseIdentTokens toks
              | _ => none
            match explicitIdent with
            | some i => some i
            | none => name_ident node

/-- The attribute loop of `ItemVisitor::visit_item`: scan `attrs` from position `j`
(0-based; the Rust code tracks the 1-based `i` and later removes index `i - 1`)
and return the position of the first attribute whose resolved key equals `search`,
breaking out of the loop there. -/
def matchLoop (search : String) (node : Item) : List Attribute → Nat → Option Nat
  | [], _ => none
  | attr :: rest, j =>
    if attrMatchKey node attr = some search then some j
    else matchLoop search node rest (j + 1)

/-- `attrs.iter().enumerate().filter(|&(n, _)| n != i - 1).map(|(_, v)| v).cloned().collect()`
(lib.rs lines 331–337): drop the attribute at position `j`, keeping all others in order. -/
def removeAttrAt (attrs : List Attribute) (j : Nat) : List Attribute :=
  (attrs.enum.filter fun p => p.1 != j).map Prod.snd

/-- One visit of a single item (the body of `visit_item` before the recursive call):
`none` if the item contributes no match; `some r` if a matching attribute was found,
where `r` is the result of `set_item_attributes` on the clone (`r = none` models the
`unimplemented!()` panic). -/
def matchItem (search : String) (node : Item) : Option (Option Item) :=
  match matchLoop search node (item_attributes node) 0 with
  | none => none
  | some j => some (set_item_attributes node (removeAttrAt (item_attributes node) j))

/-- Combine the outcome of visiting `node` itself with the (already accumulated)
results of visiting its children: the matched clone is pushed before the children's
results, matching the `self.results.push(item)` before `visit::visit_item(self, node)`. -/
def combineVisit (search : String) (node : Item) (rest : Option (List Item)) :
    Option (List Item) :=
  match matchItem search node with
  | none => rest
  | some none => none
  | some (some it) => rest.map (fun l => it :: l)

mutual

/-- `ItemVisitor::visit_item` (lib.rs lines 293–346) as a pure function: the
ordered list of results contributed by `node` and its nested items, or `none`
if a panic path was reached. -/
def visitItemO (search : String) : Item → Option (List Item)
  | .Const a i => combineVisit search (.Const a i) (some [])
  | .Enum a i => combineVisit search (.Enum a i) (some [])
  | .ExternCrate a i => combineVisit search (.ExternCrate a i) (some [])
  | .Fn a i b => combineVisit search (.Fn a i b) (visitListO search b)
  | .ForeignMod a => combineVisit search (.ForeignMod a) (some [])
  | .Impl a its => combineVisit search (.Impl a its) (visitListO search its)
  | .MacroItem a iOpt => combineVisit search (.MacroItem a iOpt) (some [])
  | .Mod a i its => combineVisit search (.Mod a i its) (visitListO search its)
  | .Static a i => combineVisit search (.Static a i) (some [])
  | .Struct a i => combineVisit search (.Struct a i) (some [])
  | .Trait a i its => combineVisit search (.Trait a i its) (visitListO search its)
  | .TraitAlias a i => combineVisit search (.TraitAlias a i) (some [])
  | .TypeAlias a i => combineVisit search (.TypeAlias a i) (some [])
  | .Union a i => combineVisit search (.Union a i) (some [])
  | .Use a => combineVisit search (.Use a) (some [])
  | .Verbatim => combineVisit search .Verbatim (some [])

/-- Visiting a list of sibling items in order, concatenating their results
(`visitor.visit_file` visits the file's items in source order). -/
def visitListO (search : String) : List Item → Option (List Item)
  | [] => some []
  | n :: rest =>
    match visitItemO search n, visitListO search rest with
    | some a, some b => some (a ++ b)
    | _, _ => none

end

mutual

/-- Modelled from the spec's Tree Matcher section: the depth-first, pre-order
(document order) enumeration of a declaration tree — each node before its
children, siblings in textual order. Used only to compare the visitor against
the spec's traversal-order contract. -/
def preorderItem : Item → List Item
  | .Const a i => [.Const a i]
  | .Enum a i => [.Enum a i]
  | .ExternCrate a i => [.ExternCrate a i]
  | .Fn a i b => .Fn a i b :: preorderList b
  | .ForeignMod a => [.ForeignMod a]
  | .Impl a its => .Impl a its :: preorderList its
  | .MacroItem a iOpt => [.MacroItem a iOpt]
  | .Mod a i its => .Mod a i its :: preorderList its
  | .Static a i => [.Static a i]
  | .Struct a i => [.Struct a i]
  | .Trait a i its => .Trait a i its :: preorderList its
  | .TraitAlias a i => [.TraitAlias a i]
  | .TypeAlias a i => [.TypeAlias a i]
  | .Union a i => [.Union a i]
  | .Use a => [.Use a]
  | .Verbatim => [.Verbatim]

/-- Pre-order enumeration of a forest of sibling declarations. -/
def preorderList : List Item → List Item
  | [] => []
  | n :: rest => preorderItem n ++ preorderList rest

end

/-- The at-most-one match a single visited declaration contributes: the clone with
the matching attribute stripped, when the attribute loop found one (ignoring the
panic path, which is separately proved unreachable). -/
def firstMatchClone (search : String) (node : Item) : Option Item :=
  match matchItem search node with
  | some (some it) => some it
  | _ => none

/-- The external collaborators of the pipeline, as abstract functions:

* `parseFile2` — the `source_code.parse::<TokenStream2>()` + `parse2::<File>`
  route of `embed_internal` (lib.rs lines 366–367); `none` models a parse error.
* `synParseFile` — `syn::parse_file` as called inside `format_source_code`
  (lib.rs line 270); `none` models a parse error (and hence an `unwrap` panic).
* `printItem` — `item.to_token_stream().to_string()` (lib.rs line 388).
* `unparse` — `prettyplease::unparse` (lib.rs line 270).

A parsed `File` is its list of top-level items, in source order. -/
structure SynModel where
  parseFile2 : String → Option (List Item)
  synParseFile : String → Option (List Item)
  printItem : Item → String
  unparse : List Item → String

/-- `format_source_code` (lib.rs lines 269–271):
`prettyplease::unparse(&syn::parse_file(source).unwrap())`. The `unwrap` on a
failed parse is a panic, modelled as `none`. -/
def format_source_code (M : SynModel) (source : String) : Option String :=
  (M.synParseFile source).map M.unparse

/-- Finish one line that was terminated by `'\n'`: the accumulator holds the line's
characters in reverse; a carriage return directly before the newline is stripped. -/
def finishLine (acc : List Char) : String :=
  match acc with
  | '\r' :: rest => String.mk rest.reverse
  | _ => String.mk acc.reverse

/-- Character-level worker for Rust's `str::lines()`. -/
def linesAux : List Char → List Char → List String
  | [], [] => []
  | [], acc => [String.mk acc.reverse]
  | c :: rest, acc =>
    if c = '\n' then finishLine acc :: linesAux rest []
    else linesAux rest (c :: acc)

/-- Rust's `str::lines()`: split at `\n` (stripping a `\r` that directly precedes
it), with no final empty line for a trailing line ending; the empty string has no
lines, and a final line without a line ending is kept as-is. -/
def rustLines (s : String) : List String :=
  linesAux s.data []

/-- `into_example` (lib.rs lines 273–285): open a fence (` ```ignore ` unless the
run variant was requested), push each line of the formatted source, close the
fence, and join with `\n`. Propagates the `format_source_code` panic. -/
def into_example (M : SynModel) (st : String) (ignore : Bool) : Option String :=
  match format_source_code M st with
  | none => none
  | some fmtd =>
    some (String.intercalate "\n"
      (((if ignore then "```ignore" else "```") :: rustLines fmtd) ++ ["```"]))

/-- `visitor.results.iter().map(...).collect()` where each element may panic:
`none` as soon as one element panics, otherwise the list of outputs in order. -/
def mapOption (f : α → Option β) : List α → Option (List β)
  | [] => some []
  | a :: l =>
    match f a, mapOption f l with
    | some b, some bs => some (b :: bs)
    | _, _ => none

/-- `embed_internal` (lib.rs lines 349–396). Inputs past argument parsing: the
requested `file_path`, the result of `fs::read_to_string` (`none` models a read
failure), the optional `item_ident`, and the `ignore` flag. The outer `Option`
models panics (`none` = a panic was reached); `Except.error` models the
`syn::Error` diagnostics returned to the compiler. -/
def embed_internal (M : SynModel) (cwd filePath : String) (readResult : Option String)
    (itemIdent : Option String) (ignore : Bool) : Option (Except String String) :=
  match readResult with
  | none =>
    some (.error ("Could not read the specified path '" ++ filePath ++
      "' relative to '" ++ cwd ++ "'."))
  | some sourceCode =>
    match M.parseFile2 sourceCode with
    | none => some (.error "malformed source")
    | some items =>
      match itemIdent with
      | some ident =>
        match visitListO ident items with
        | none => none
        | some results =>
          if results.isEmpty then
            some (.error ("Could not find docify export item '" ++ ident ++
              "' in '" ++ filePath ++ "'."))
          else
            match mapOption (fun r => into_example M (M.printItem r) ignore) results with
            | none => none
            | some blocks => some (.ok (String.intercalate "\n" blocks))
      | none =>
        match into_example M sourceCode ignore with
        | none => none
        | some block => some (.ok block)

/-- `parse2::<ExportAttr>` (lib.rs lines 140–143): an optional single identifier.
Succeeds with `none` on an empty stream, with `some s` on exactly one identifier
token, and fails otherwise (`parse2` rejects leftover tokens). -/
def parseExportAttr : List Tok → Except String (Option String)
  | [] => .ok none
  | [Tok.ident s] => .ok (some s)
  | _ => .error "expected identifier"

/-- `export_internal` (lib.rs lines 145–168), with the item already parsed: parse
the attribute argument, resolve the export ident (explicit argument, else the
item's inherent name, else a compile error at the item's span), and emit the item
unchanged (`quote!(#item)`). -/
def export_internal (attrToks : List Tok) (item : Item) : Except String Item :=
  match parseExportAttr attrToks with
  | .error e => .error e
  | .ok identOpt =>
    match identOpt with
    | some _ => .ok item
    | none =>
      match name_ident item with
      | some _ => .ok item
      | none =>
        .error ("Cannot automatically detect ident from this item. " ++
          "You will need to specify a name manually as the argument " ++
          "for the #[export] attribute, i.e. #[export(my_name)].")

/-- Modelled from the spec's Snippet Renderer / Orchestrator sections: the raw
text, *verbatim* (not re-serialized through the formatter), wrapped in exactly
one fenced display block. This is the behaviour the spec prescribes for the
whole-file path; it is compared against what `embed_internal` actually produces. -/
def specVerbatimBlock (s : String) (ignore : Bool) : String :=
  String.intercalate "\n"
    (((if ignore then "```ignore" else "```") :: rustLines s) ++ ["```"])

/-! ### Concrete fixtures used by witnesses and counterexamples -/

/-- A bare, argument-less, single-segment outer `#[export]` attribute. -/
def attrBare : Attribute := ⟨AttrStyle.outer, ["export"], Meta.path⟩

/-- An argument-less two-segment outer `#[docify::export]` attribute. -/
def attrDE : Attribute := ⟨AttrStyle.outer, ["docify", "export"], Meta.path⟩

/-- `#[docify::export(A)]`: an explicit export-name override. -/
def attrArgA : Attribute := ⟨AttrStyle.outer, ["docify", "export"], Meta.list [Tok.ident "A"]⟩

/-- An eligible export attribute whose argument list does not parse as one identifier. -/
def attrBadArg : Attribute := ⟨AttrStyle.outer, ["docify", "export"], Meta.list [Tok.other]⟩

/-- Raw text of a one-item source file, deliberately not in canonical format. -/
def srcRaw : String := "static  X : u8 = 1 ;"

/-- The canonical (formatter) rendering of `srcRaw`. -/
def srcFmt : String := "static X: u8 = 1;\n"

/-- The single item of `srcRaw`. -/
def itemX : Item := .Static [] "X"

/-- A concrete collaborator model for the one-item file `srcRaw`. -/
def Mtest : SynModel where
  parseFile2 := fun s => if s = srcRaw then some [itemX] else none
  synParseFile := fun s => if s = srcRaw ∨ s = srcFmt then some [itemX] else none
  printItem := fun _ => srcRaw
  unparse := fun _ => srcFmt

/-- Raw text of a two-item source file for the duplicate-key fixtures. -/
def src2 : String := "two item source"

/-- First fixture item: `#[docify::export] static A`, inherent name `A`. -/
def item1 : Item := .Static [attrDE] "A"

/-- Second fixture item: `#[docify::export(A)] static B`, explicit key `A`. -/
def item2 : Item := .Static [attrArgA] "B"

/-- Printed token text of the stripped clone of a fixture item. -/
def printed (it : Item) : String :=
  match name_ident it with
  | some i => "static " ++ i ++ ": u8 = 1;"
  | none => "other"

/-- A concrete collaborator model for the two-item file `src2`: both items resolve
to export key `A`. -/
def M2 : SynModel where
  parseFile2 := fun s => if s = src2 then some [item1, item2] else none
  synParseFile := fun s =>
    if s = printed (.Static [] "A") then some [.Static [] "A"]
    else if s = printed (.Static [] "B") then some [.Static [] "B"]
    else none
  printItem := printed
  unparse := fun its =>
    match its with
    | [it] => printed it ++ "\n"
    | _ => "other\n"

/-- The rendered display block of the first fixture clone. -/
def blk1 : String := "```ignore\nstatic A: u8 = 1;\n```"

/-- The rendered display block of the second fixture clone. -/
def blk2 : String := "```ignore\nstatic B: u8 = 1;\n```"

/-- Raw text of a source file containing `#[export] fn hello() ...` — a bare,
single-segment export tag on a named fn. -/
def srcBare : String := "bare export file"

/-- The single item of `srcBare`. -/
def itemBare : Item := .Fn [attrBare] "hello" []

/-- A concrete collaborator model for `srcBare` (the lookup errors before any
formatting, so the formatter side is irrelevant). -/
def Mbare : SynModel where
  parseFile2 := fun s => if s = srcBare then some [itemBare] else none
  synParseFile := fun _ => none
  printItem := fun _ => ""
  unparse := fun _ => ""

/-! ### Helper lemmas -/

theorem visitItemO_eq (search : String) (node : Item) :
    visitItemO search node = combineVisit search node (visitListO search (children node)) := by
  cases node <;> simp [visitItemO, visitListO, children]

theorem preorderItem_eq (node : Item) :
    preorderItem node = node :: preorderList (children node) := by
  cases node <;> simp [preorderItem, preorderList, children]

theorem set_item_attributes_isSome (node : Item) (h : item_attributes node ≠ [])
    (l : List Attribute) : (set_item_attributes node l).isSome := by
  cases node <;> simp_all [set_item_attributes, item_attributes]

theorem set_item_attributes_props (node it : Item) (l : List Attribute)
    (h : set_item_attributes node l = some it) :
    item_attributes it = l ∧ name_ident it = name_ident node ∧ children it = children node := by
  cases node <;> simp [set_item_attributes] at h <;>
    simp [← h, item_attributes, name_ident, children]

theorem matchLoop_nil (search : String) (node : Item) (j : Nat) :
    matchLoop search node [] j = none := rfl

theorem matchLoop_spec (search : String) (node : Item) :
    ∀ (attrs : List Attribute) (j0 j : Nat), matchLoop search node attrs j0 = some j →
      ∃ pre a post, attrs = pre ++ a :: post ∧ j = j0 + pre.length ∧
        attrMatchKey node a = some search ∧ ∀ b ∈ pre, attrMatchKey node b ≠ some search
  | [], j0, j => by simp [matchLoop]
  | attr :: rest, j0, j => by
    intro h
    by_cases hk : attrMatchKey node attr = some search
    · rw [matchLoop, if_pos hk] at h
      injection h with h
      exact ⟨[], attr, rest, rfl, by simp [h], hk, by simp⟩
    · rw [matchLoop, if_neg hk] at h
      obtain ⟨pre, a, post, he, hj, hka, hpre⟩ := matchLoop_spec search node rest (j0 + 1) j h
      refine ⟨attr :: pre, a, post, by simp [he], by simp [hj]; omega, hka, ?_⟩
      intro b hb
      rcases List.mem_cons.mp hb with hb | hb
      · rw [hb]; exact hk
      · exact hpre b hb

theorem enumFrom_filter_lt {α : Type} : ∀ (l : List α) (k j : Nat), j < k →
    ((List.enumFrom k l).filter fun p => p.1 != j).map Prod.snd = l
  | [], _, _, _ => rfl
  | x :: xs, k, j, h => by
    have hne : (k != j) = true := by simp; omega
    simp only [List.enumFrom, List.filter_cons, hne]
    simp [enumFrom_filter_lt xs (k + 1) j (by omega)]

theorem enumFrom_filter_eq {α : Type} :
    ∀ (pre : List α) (a : α) (post : List α) (k : Nat),
      ((List.enumFrom k (pre ++ a :: post)).filter
        fun p => p.1 != (k + pre.length)).map Prod.snd = pre ++ post
  | [], a, post, k => by
    have hk : (k != k + List.length ([] : List α)) = false := by simp
    simp only [List.nil_append, List.enumFrom, List.filter_cons, hk]
    simpa using enumFrom_filter_lt post (k + 1) k (by omega)
  | x :: pre, a, post, k => by
    have hk : (k != k + List.length (x :: pre)) = true := by simp
    simp only [List.cons_append, List.enumFrom, List.filter_cons, hk]
    have ih := enumFrom_filter_eq pre a post (k + 1)
    have harith : k + 1 + pre.length = k + (pre.length + 1) := by omega
    rw [harith] at ih
    simp only [List.length_cons] at ih ⊢
    simp [ih]

theorem removeAttrAt_spec (pre post : List Attribute) (a : Attribute) :
    removeAttrAt (pre ++ a :: post) pre.length = pre ++ post := by
  have h := enumFrom_filter_eq pre a post 0
  simpa [removeAttrAt, List.enum] using h

theorem matchItem_ne_panic (search : String) (node : Item) :
    matchItem search node ≠ some none := by
  unfold matchItem
  cases hm : matchLoop search node (item_attributes node) 0 with
  | none => simp
  | some j =>
    simp only [ne_eq, Option.some.injEq]
    intro h
    have hne : item_attributes node ≠ [] := by
      intro hnil
      rw [hnil, matchLoop_nil] at hm
      exact Option.noConfusion hm
    have hs := set_item_attributes_isSome node hne (removeAttrAt (item_attributes node) j)
    rw [h] at hs
    exact Bool.noConfusion hs

theorem combineVisit_pre (search : String) (node : Item) (rest : Option (List Item))
    (hrec : rest = some ((preorderList (children node)).filterMap (firstMatchClone search))) :
    combineVisit search node rest =
      some ((preorderItem node).filterMap (firstMatchClone search)) := by
  rw [hrec, preorderItem_eq]
  cases hm : matchItem search node with
  | none => simp [combineVisit, hm, List.filterMap_cons, firstMatchClone]
  | some o =>
    cases o with
    | none => exact absurd hm (matchItem_ne_panic search node)
    | some it => simp [combineVisit, hm, List.filterMap_cons, firstMatchClone]

mutual

theorem visitItemO_pre (search : String) : (node : Item) →
    visitItemO search node = some ((preorderItem node).filterMap (firstMatchClone search))
  | .Const a i => by
    rw [visitItemO_eq]
    exact combineVisit_pre search (.Const a i) _ (by simp [visitListO, children, preorderList])
  | .Enum a i => by
    rw [visitItemO_eq]
    exact combineVisit_pre search (.Enum a i) _ (by simp [visitListO, children, preorderList])
  | .ExternCrate a i => by
    rw [visitItemO_eq]
    exact combineVisit_pre search (.ExternCrate a i) _
      (by simp [visitListO, children, preorderList])
  | .Fn a i b => by
    rw [visitItemO_eq]
    exact combineVisit_pre search (.Fn a i b) _
      (by simpa [children] using visitListO_pre search b)
  | .ForeignMod a => by
    rw [visitItemO_eq]
    exact combineVisit_pre search (.ForeignMod a) _
      (by simp [visitListO, children, preorderList])
  | .Impl a its => by
    rw [visitItemO_eq]
    exact combineVisit_pre search (.Impl a its) _
      (by simpa [children] using visitListO_pre search its)
  | .MacroItem a iOpt => by
    rw [visitItemO_eq]
    exact combineVisit_pre search (.MacroItem a iOpt) _
      (by simp [visitListO, children, preorderList])
  | .Mod a i its => by
    rw [visitItemO_eq]
    exact combineVisit_pre search (.Mod a i its) _
      (by simpa [children] using visitListO_pre search its)
  | .Static a i => by
    rw [visitItemO_eq]
    exact combineVisit_pre search (.Static a i) _ (by simp [visitListO, children, preorderList])
  | .Struct a i => by
    rw [visitItemO_eq]
    exact combineVisit_pre search (.Struct a i) _ (by simp [visitListO, children, preorderList])
  | .Trait a i its => by
    rw [visitItemO_eq]
    exact combineVisit_pre search (.Trait a i its) _
      (by simpa [children] using visitListO_pre search its)
  | .TraitAlias a i => by
    rw [visitItemO_eq]
    exact combineVisit_pre search (.TraitAlias a i) _
      (by simp [visitListO, children, preorderList])
  | .TypeAlias a i => by
    rw [visitItemO_eq]
    exact combineVisit_pre search (.TypeAlias a i) _
      (by simp [visitListO, children, preorderList])
  | .Union a i => by
    rw [visitItemO_eq]
    exact combineVisit_pre search (.Union a i) _ (by simp [visitListO, children, preorderList])
  | .Use a => by
    rw [visitItemO_eq]
    exact combineVisit_pre search (.Use a) _ (by simp [visitListO, children, preorderList])
  | .Verbatim => by
    rw [visitItemO_eq]
    exact combineVisit_pre search .Verbatim _ (by simp [visitListO, children, preorderList])

theorem visitListO_pre (search : String) : (nodes : List Item) →
    visitListO search nodes = some ((preorderList nodes).filterMap (firstMatchClone search))
  | [] => by simp [visitListO, preorderList]
  | n :: rest => by
    have h1 := visitItemO_pre search n
    have h2 := visitListO_pre search rest
    simp [visitListO, h1, h2, preorderList, List.filterMap_append]

end

theorem visitListO_isSome (search : String) (nodes : List Item) :
    (visitListO search nodes).isSome := by
  rw [visitListO_pre]
  rfl

theorem visitItemO_isSome (search : String) (node : Item) :
    (visitItemO search node).isSome := by
  rw [visitItemO_pre]
  rfl

theorem mapOption_length {α β : Type} (f : α → Option β) :
    ∀ (l : List α) (bs : List β), mapOption f l = some bs → bs.length = l.length
  | [], bs => by
    intro h
    injection h with h
    simp [← h]
  | a :: l, bs => by
    intro h
    rw [mapOption] at h
    cases hfa : f a with
    | none => rw [hfa] at h; exact Option.noConfusion h
    | some b =>
      cases hml : mapOption f l with
      | none => rw [hfa, hml] at h; exact Option.noConfusion h
      | some bs' =>
        rw [hfa, hml] at h
        injection h with h
        rw [← h]
        simp [mapOption_length f l bs' hml]

theorem mapOption_isSome {α β : Type} (f : α → Option β) :
    ∀ (l : List α), (∀ a ∈ l, (f a).isSome) → (mapOption f l).isSome
  | [], _ => rfl
  | a :: l, h => by
    have ha := h a (by simp)
    have hl := mapOption_isSome f l (fun x hx => h x (by simp [hx]))
    rw [mapOption]
    cases hfa : f a with
    | none => rw [hfa] at ha; exact Bool.noConfusion ha
    | some b =>
      cases hml : mapOption f l with
      | none => rw [hml] at hl; exact Bool.noConfusion hl
      | some bs => simp

/-! ### Claim theorems -/

/-- C1: the claim says a bare, single-segment `#[export]` tag on an item with
inherent name `N` makes a lookup for `N` include that item. The code does the
opposite: `attr.path().segments.iter().rev().nth(1)` is `None` on a single-segment
path and the `let ... else { continue }` skips the attribute, so the visitor
collects nothing and the lookup fails with the not-found error. This theorem
records the actual behaviour of the code at that failing input. -/
theorem c1_bare_export_tag_is_skipped :
    attrMatchKey itemBare attrBare = none ∧
    visitListO "hello" [itemBare] = some [] ∧
    embed_internal Mbare "w" "f.rs" (some srcBare) (some "hello") true =
      some (.error "Could not find docify export item 'hello' in 'f.rs'.") :=
  ⟨rfl, rfl, rfl⟩

/-- C2: the claim says a whole-file lookup returns the file's raw content
verbatim, not re-serialized through the formatter. The code pipes the raw source
through `into_example`, which calls `format_source_code` (prettyplease) on it;
on a file that is not already in canonical form the output is the formatter's
text, not the raw text. This theorem records the actual behaviour at such an
input: the result is the formatted text in one display block, and differs from
the verbatim block the claim prescribes. -/
theorem c2_whole_file_is_formatted_not_verbatim :
    embed_internal Mtest "w" "f.rs" (some srcRaw) none true =
      some (.ok (specVerbatimBlock srcFmt true)) ∧
    embed_internal Mtest "w" "f.rs" (some srcRaw) none true ≠
      some (.ok (specVerbatimBlock srcRaw true)) := by
  refine ⟨rfl, ?_⟩
  intro h
  have h1 : embed_internal Mtest "w" "f.rs" (some srcRaw) none true =
      some (.ok (specVerbatimBlock srcFmt true)) := rfl
  rw [h1] at h
  simp only [Option.some.injEq, Except.ok.injEq] at h
  exact (by decide : specVerbatimBlock srcFmt true ≠ specVerbatimBlock srcRaw true) h

/-- C3 (counterexample): with two matched declarations, the rendered output is the
two display blocks joined by a single `"\n"` — the closing fence of the first
block is immediately followed by the opening fence of the second — and it is not
the blank-line join (`"\n\n"`) the claim describes. -/
theorem c3_counterexample_no_blank_line :
    embed_internal M2 "w" "f2.rs" (some src2) (some "A") true =
      some (.ok (String.intercalate "\n" [blk1, blk2])) ∧
    embed_internal M2 "w" "f2.rs" (some src2) (some "A") true ≠
      some (.ok (String.intercalate "\n\n" [blk1, blk2])) := by
  refine ⟨rfl, ?_⟩
  intro h
  have h1 : embed_internal M2 "w" "f2.rs" (some src2) (some "A") true =
      some (.ok (String.intercalate "\n" [blk1, blk2])) := rfl
  rw [h1] at h
  simp only [Option.some.injEq, Except.ok.injEq] at h
  exact (by decide :
    String.intercalate "\n" [blk1, blk2] ≠ String.intercalate "\n\n" [blk1, blk2]) h

/-- C3 (amended): for every lookup producing two or more matched declarations, the
rendered output is the sequence of their display blocks, one per match, joined by
a single newline (`results.join("\n")`), in match order. -/
theorem c3_blocks_joined_by_single_newline (M : SynModel) (cwd filePath src ident : String)
    (items rs : List Item) (blocks : List String) (ignore : Bool)
    (hp : M.parseFile2 src = some items)
    (hv : visitListO ident items = some rs)
    (hlen : 2 ≤ rs.length)
    (hb : mapOption (fun r => into_example M (M.printItem r) ignore) rs = some blocks) :
    embed_internal M cwd filePath (some src) (some ident) ignore =
      some (.ok (String.intercalate "\n" blocks)) ∧
    blocks.length = rs.length := by
  have hne : rs.isEmpty = false := by
    cases rs with
    | nil => simp at hlen
    | cons a l => rfl
  refine ⟨?_, mapOption_length _ rs blocks hb⟩
  simp [embed_internal, hp, hv, hne, hb]

/-- C3 (witness): the amended join theorem applied to the concrete two-match model. -/
theorem c3_witness :
    embed_internal M2 "w" "f2.rs" (some src2) (some "A") true =
      some (.ok (String.intercalate "\n" [blk1, blk2])) ∧
    ([blk1, blk2] : List String).length =
      ([.Static [] "A", .Static [] "B"] : List Item).length :=
  c3_blocks_joined_by_single_newline M2 "w" "f2.rs" src2 "A" [item1, item2]
    [.Static [] "A", .Static [] "B"] [blk1, blk2] true rfl rfl (by simp) rfl

/-- C4: when a visited declaration matches, the clone pushed to the results equals
the original except that exactly the first matching attribute is removed at its
original position: the attributes split as `pre ++ a :: post` with `a` the first
attribute whose resolved key equals the search key, the clone's attributes are
`pre ++ post` (all others, original order), and the clone's name, kind-specific
payload and nested children are those of the original. -/
theorem c4_clone_strips_exactly_the_matching_attribute (search : String) (node it : Item)
    (h : matchItem search node = some (some it)) :
    ∃ pre a post,
      item_attributes node = pre ++ a :: post ∧
      attrMatchKey node a = some search ∧
      (∀ b ∈ pre, attrMatchKey node b ≠ some search) ∧
      set_item_attributes node (pre ++ post) = some it ∧
      item_attributes it = pre ++ post ∧
      name_ident it = name_ident node ∧
      children it = children node := by
  unfold matchItem at h
  cases hm : matchLoop search node (item_attributes node) 0 with
  | none => rw [hm] at h; exact Option.noConfusion h
  | some j =>
    rw [hm] at h
    injection h with h
    obtain ⟨pre, a, post, he, hj, hka, hpre⟩ :=
      matchLoop_spec search node (item_attributes node) 0 j hm
    rw [he] at h
    rw [hj] at h
    simp only [Nat.zero_add] at h
    rw [removeAttrAt_spec pre post a] at h
    obtain ⟨hattrs, hname, hchildren⟩ := set_item_attributes_props node it (pre ++ post) h
    exact ⟨pre, a, post, he, hka, hpre, h, hattrs, hname, hchildren⟩

/-- C4 (witness): the clone theorem applied at a concrete matched declaration. -/
theorem c4_witness :
    ∃ pre a post,
      item_attributes (Item.Static [attrDE] "X") = pre ++ a :: post ∧
      attrMatchKey (Item.Static [attrDE] "X") a = some "X" ∧
      (∀ b ∈ pre, attrMatchKey (Item.Static [attrDE] "X") b ≠ some "X") ∧
      set_item_attributes (Item.Static [attrDE] "X") (pre ++ post) =
        some (Item.Static [] "X") ∧
      item_attributes (Item.Static [] "X") = pre ++ post ∧
      name_ident (Item.Static [] "X") = name_ident (Item.Static [attrDE] "X") ∧
      children (Item.Static [] "X") = children (Item.Static [attrDE] "X") :=
  c4_clone_strips_exactly_the_matching_attribute "X" (.Static [attrDE] "X")
    (.Static [] "X") rfl

/-- C5: the visitor returns exactly the matches contributed by the declarations in
depth-first pre-order (document order) — parents before children, earlier siblings
first — where each visited declaration contributes its at-most-one match
(`firstMatchClone`, the clone from the first matching attribute), and every
declaration's children are enumerated whether or not it matched. -/
theorem c5_matches_in_preorder (search : String) (nodes : List Item) :
    visitListO search nodes =
      some ((preorderList nodes).filterMap (firstMatchClone search)) :=
  visitListO_pre search nodes

/-- C6: on a file that reads and parses, a named lookup with zero matches fails
with the not-found error naming both the requested identifier and the file path
(and returns no block); with at least one match it succeeds with the rendered
blocks joined in match order. -/
theorem c6_not_found_error_or_rendered_matches (M : SynModel)
    (cwd filePath src ident : String) (items rs : List Item) (blocks : List String)
    (ignore : Bool) (hp : M.parseFile2 src = some items) :
    (visitListO ident items = some [] →
      embed_internal M cwd filePath (some src) (some ident) ignore =
        some (.error ("Could not find docify export item '" ++ ident ++
          "' in '" ++ filePath ++ "'."))) ∧
    (visitListO ident items = some rs → rs ≠ [] →
      mapOption (fun r => into_example M (M.printItem r) ignore) rs = some blocks →
      embed_internal M cwd filePath (some src) (some ident) ignore =
        some (.ok (String.intercalate "\n" blocks))) := by
  constructor
  · intro hv
    simp [embed_internal, hp, hv]
  · intro hv hne hb
    have hemp : rs.isEmpty = false := by
      cases rs with
      | nil => exact absurd rfl hne
      | cons a l => rfl
    simp [embed_internal, hp, hv, hemp, hb]

/-- C6 (witness): both branches at the concrete two-item model — an absent
identifier produces the not-found diagnostic naming identifier and file, a
present one produces the joined blocks. -/
theorem c6_witness :
    embed_internal M2 "w" "f2.rs" (some src2) (some "zzz") true =
      some (.error ("Could not find docify export item '" ++ "zzz" ++
        "' in '" ++ "f2.rs" ++ "'.")) ∧
    embed_internal M2 "w" "f2.rs" (some src2) (some "A") true =
      some (.ok (String.intercalate "\n" [blk1, blk2])) := by
  constructor
  · exact (c6_not_found_error_or_rendered_matches M2 "w" "f2.rs" src2 "zzz"
      [item1, item2] [] [] true rfl).1 rfl
  · exact (c6_not_found_error_or_rendered_matches M2 "w" "f2.rs" src2 "A"
      [item1, item2] [.Static [] "A", .Static [] "B"] [blk1, blk2] true rfl).2
      rfl (by simp) rfl

/-- C7: the attribute write is safe: the visitor never reaches the
`unimplemented!()` arm (it never returns the panic value), a single visit never
yields the panic value either, and every item variant whose attribute read can be
non-empty supports the write (`set_item_attributes` succeeds on it). -/
theorem c7_attribute_write_is_safe (search : String) (nodes : List Item) (it : Item)
    (l : List Attribute) :
    (visitListO search nodes).isSome ∧
    matchItem search it ≠ some none ∧
    (item_attributes it ≠ [] → (set_item_attributes it l).isSome) :=
  ⟨visitListO_isSome search nodes, matchItem_ne_panic search it,
   fun h => set_item_attributes_isSome it h l⟩

/-- C7 (witness): the safety theorem applied at a concrete declaration carrying an
attribute. -/
theorem c7_witness :
    (visitListO "X" [Item.Static [attrDE] "X"]).isSome ∧
    matchItem "X" (Item.Static [attrDE] "X") ≠ some none ∧
    (set_item_attributes (Item.Static [attrDE] "X") []).isSome := by
  have h := c7_attribute_write_is_safe "X" [.Static [attrDE] "X"] (.Static [attrDE] "X") []
  exact ⟨h.1, h.2.1, h.2.2 (by simp [item_attributes])⟩

/-- C8: `export_internal` either succeeds, emitting the item unchanged, or fails;
and it fails exactly when the export key is unresolvable: the attribute argument
is neither empty nor a single identifier token, or it is empty and the item has no
inherent name. -/
theorem c8_export_fails_iff_key_unresolvable (toks : List Tok) (item : Item) :
    (export_internal toks item = .ok item ∨ ∃ e, export_internal toks item = .error e) ∧
    ((∃ e, export_internal toks item = .error e) ↔
      (¬ (toks = [] ∨ ∃ s, toks = [Tok.ident s]) ∨
        (toks = [] ∧ name_ident item = none))) := by
  match toks with
  | [] =>
    cases hn : name_ident item with
    | none => simp [export_internal, parseExportAttr, hn]
    | some n => simp [export_internal, parseExportAttr, hn]
  | [Tok.ident s] => simp [export_internal, parseExportAttr]
  | [Tok.other] => simp [export_internal, parseExportAttr]
  | t1 :: t2 :: rest =>
    have hpe : parseExportAttr (t1 :: t2 :: rest) = .error "expected identifier" := by
      cases t1 <;> rfl
    simp [export_internal, hpe]

/-- C9: under the collaborator contracts — a source accepted by the
token-stream/`parse2::<File>` route is accepted by `syn::parse_file`, and the
printed token text of any collected result re-parses — `embed_internal` never
reaches a panic (`format_source_code`'s `unwrap` and the attribute-write panic
included): it always returns a value (success or compile error). -/
theorem c9_rendering_never_panics (M : SynModel) (cwd filePath src : String)
    (items : List Item) (identOpt : Option String) (ignore : Bool)
    (hp : M.parseFile2 src = some items)
    (hlenient : ∀ s f, M.parseFile2 s = some f → (M.synParseFile s).isSome)
    (hprint : ∀ ident rs r, visitListO ident items = some rs → r ∈ rs →
      (M.synParseFile (M.printItem r)).isSome) :
    (embed_internal M cwd filePath (some src) identOpt ignore).isSome := by
  cases identOpt with
  | none =>
    obtain ⟨f, hf⟩ := Option.isSome_iff_exists.mp (hlenient src items hp)
    simp [embed_internal, hp, into_example, format_source_code, hf]
  | some ident =>
    have hv := visitListO_pre ident items
    by_cases he : ((preorderList items).filterMap (firstMatchClone ident)).isEmpty = true
    · simp [embed_internal, hp, hv, he]
    · have hmap := mapOption_isSome (fun r => into_example M (M.printItem r) ignore)
        ((preorderList items).filterMap (firstMatchClone ident))
        (by
          intro r hr
          obtain ⟨f, hf⟩ := Option.isSome_iff_exists.mp (hprint ident _ r hv hr)
          simp [into_example, format_source_code, hf])
      obtain ⟨blocks, hb⟩ := Option.isSome_iff_exists.mp hmap
      simp [embed_internal, hp, hv, he, hb]

/-- C9 (witness): the no-panic theorem applied to the concrete one-item model. -/
theorem c9_witness : (embed_internal Mtest "w" "f.rs" (some srcRaw) none true).isSome := by
  apply c9_rendering_never_panics Mtest "w" "f.rs" srcRaw [itemX] none true rfl
  · intro s f h
    simp only [Mtest] at h ⊢
    by_cases hs : s = srcRaw
    · simp [hs]
    · simp [hs] at h
  · intro ident rs r hv hr
    have h0 : visitListO ident [itemX] = some [] := by
      rw [visitListO_pre]
      rfl
    rw [h0] at hv
    injection hv with hv
    rw [← hv] at hr
    exact absurd hr (List.not_mem_nil r)

/-- C10: an eligible export tag whose argument list does not parse as a single
identifier does not make the lookup fail: its key silently falls back to the
declaration's inherent name; when the declaration also has no inherent name the
attribute is skipped and the loop continues with the remaining attributes; and
visiting the declaration still produces a result (no match-time error). -/
theorem c10_malformed_argument_falls_back (search : String) (node : Item)
    (segs : List String) (toks : List Tok) (s2 : String) (rest : List Attribute) (j : Nat)
    (h1 : segs.getLast? = some "export")
    (h2 : segs.reverse.get? 1 = some s2)
    (h3 : s2 = "export" ∨ s2 = "docify")
    (h4 : parseIdentTokens toks = none) :
    attrMatchKey node ⟨AttrStyle.outer, segs, Meta.list toks⟩ = name_ident node ∧
    (name_ident node = none →
      matchLoop search node (⟨AttrStyle.outer, segs, Meta.list toks⟩ :: rest) j =
        matchLoop search node rest (j + 1)) ∧
    (visitItemO search node).isSome := by
  have h2' : segs.reverse[1]? = some s2 := by
    rw [← List.get?_eq_getElem?]
    exact h2
  have hkey : attrMatchKey node ⟨AttrStyle.outer, segs, Meta.list toks⟩ =
      name_ident node := by
    rcases h3 with h3 | h3 <;> subst h3 <;> simp [attrMatchKey, h1, h2', h4]
  refine ⟨hkey, ?_, visitItemO_isSome search node⟩
  intro hn
  rw [matchLoop, if_neg (by simp [hkey, hn])]

/-- C10 (witness): the fallback theorem at a concrete nameless declaration with a
malformed tag argument. -/
theorem c10_witness :
    attrMatchKey (Item.Impl [] []) attrBadArg = name_ident (Item.Impl [] []) ∧
    matchLoop "k" (Item.Impl [] []) [attrBadArg] 0 = matchLoop "k" (Item.Impl [] []) [] 1 ∧
    (visitItemO "k" (Item.Impl [] [])).isSome := by
  have h := c10_malformed_argument_falls_back "k" (.Impl [] []) ["docify", "export"]
    [Tok.other] "docify" [] 0 rfl rfl (Or.inr rfl) rfl
  exact ⟨h.1, h.2.1 rfl, h.2.2⟩

end Docify
